import Mathlib

/-!
Verification of the netboost-pro packet pipeline.

The definitions below are a shallow embedding of the Rust sources under
`src/src-tauri/src/` (`packet_router.rs`, `performance_monitor.rs`,
`interface_manager.rs`).  Conventions used throughout:

* machine integers (`u8`, `u16`, `u32`, `u64`, `usize`) are modelled as `Nat`;
  counter overflow (which needs 2^64 events) is not modelled;
* `std::time::Duration` is modelled as a `Nat` of nanoseconds, with
  `Duration::as_millis` as truncating division by 10^6 and `Duration` division
  by an integer as truncating division of the nanosecond count;
* `f32` values (packet-loss ratios, scores, confidences) are modelled as exact
  rationals `ℚ`; `partial_cmp` on such values (never NaN here) is the total
  comparison `ratCmp`;
* `HashMap<u32, PacketMetrics>` is modelled as `Nat → Option PacketMetrics`;
* fallible Rust functions returning `anyhow::Result` are modelled with
  `Except String`; a reachable `unwrap`/panic is modelled by an explicit
  `panic` outcome (`RouteResult.panic`) or an `Option`;
* byte buffers are `List Nat` (each entry a byte value); `pnet` accessors are
  modelled by positional reads with big-endian 16-bit fields.
-/

namespace NetBoost


/-- From `interface_manager.rs`: `PhysicalInterface` (the IPv4 address is kept as a
single `Nat`; it plays no role in the verified logic). -/
structure PhysicalInterface where
  name : String
  description : String
  ip_address : Nat
  index : Nat
deriving DecidableEq

/-- From `packet_router.rs`: `PacketMetrics`.  `last_updated : Instant` is wall-clock
data never read by the routing logic and is omitted. -/
structure PacketMetrics where
  latency : Nat
  bandwidth_usage : Nat
  packet_loss : ℚ
deriving DecidableEq

/-- The `interface_metrics` map of `PacketRouter`. -/
abbrev MetricsMap := Nat → Option PacketMetrics

/-- From `packet_router.rs`: `TrafficType`. -/
inductive TrafficType where
  | Gaming
  | Streaming
  | File
  | Web
  | Unknown
deriving DecidableEq

/-- From `packet_router.rs`: `LoadBalancingMode`. -/
inductive LoadBalancingMode where
  | RoundRobin
  | LatencyBased
  | BandwidthBased
  | Balanced
deriving DecidableEq

/-- From `packet_router.rs`: `TrafficInfo` (destination kept as a `Nat` encoding of
the IPv4 address). -/
structure TrafficInfo where
  traffic_type : TrafficType
  priority : Nat
  estimated_size : Nat
  destination : Option Nat
deriving DecidableEq

/-- From `packet_router.rs`: `RoutingDecision`. -/
structure RoutingDecision where
  interface_index : Nat
  interface_name : String
  confidence : ℚ
  reason : String
deriving DecidableEq

/-- Rust `Duration::from_millis`, in nanoseconds. -/
def durationFromMillis (n : Nat) : Nat := n * 1000000

/-- Rust `Duration::as_millis` (truncating). -/
def asMillis (d : Nat) : Nat := d / 1000000

/-- Byte access `data[i]`; all uses below are guarded by length checks that
mirror the source's parser guards, so the default 0 is never observed. -/
def byteAt (data : List Nat) (i : Nat) : Nat := data.getD i 0

/-- Big-endian 16-bit field at offset `i` (as read by the `pnet` accessors). -/
def be16 (data : List Nat) (i : Nat) : Nat := 256 * byteAt data i + byteAt data (i + 1)

/-- IPv4 address bytes 16..19 of an IPv4 header, as one `Nat`. -/
def ipDest (p : List Nat) : Nat :=
  ((byteAt p 16 * 256 + byteAt p 17) * 256 + byteAt p 18) * 256 + byteAt p 19

/-- Embeds `PacketRouter::classify_tcp_traffic` (packet_router.rs:159-180).  The
caller guarantees the TCP header parsed, i.e. at least 20 bytes.  The match
arms are tried in source order. -/
def classify_tcp_traffic (tcp : List Nat) : TrafficType × Nat :=
  let dest_port := be16 tcp 2
  let src_port := be16 tcp 0
  if dest_port = 80 ∨ dest_port = 443 ∨ dest_port = 8080 ∨ dest_port = 8443 then
    (TrafficType.Web, 2)
  else if 1024 ≤ dest_port ∧ dest_port ≤ 5000 then
    (TrafficType.Gaming, 4)
  else if dest_port = 21 ∨ dest_port = 22 ∨ dest_port = 990 ∨ dest_port = 989 then
    (TrafficType.File, 1)
  else if dest_port = 1935 ∨ dest_port = 554 then
    (TrafficType.Streaming, 3)
  else if src_port = 80 ∨ src_port = 443 then
    (TrafficType.Web, 2)
  else
    (TrafficType.Unknown, 1)

/-- Embeds `PacketRouter::classify_udp_traffic` (packet_router.rs:182-196). -/
def classify_udp_traffic (udp : List Nat) : TrafficType × Nat :=
  let dest_port := be16 udp 2
  if dest_port = 53 then
    (TrafficType.Web, 3)
  else if dest_port = 3074 ∨ dest_port = 27015 ∨ (7777 ≤ dest_port ∧ dest_port ≤ 7784) then
    (TrafficType.Gaming, 4)
  else if dest_port = 5004 ∨ dest_port = 5005 ∨ dest_port = 1234 then
    (TrafficType.Streaming, 3)
  else if dest_port = 5060 ∨ dest_port = 5061 then
    (TrafficType.Gaming, 4)
  else
    (TrafficType.Unknown, 1)

/-- The `pnet` `Ipv4Packet::payload()` slice: starts after the options
(`20 + ((4*ihl).saturating_sub 20)` bytes, which `Nat` subtraction models
exactly) and extends for `total_length.saturating_sub (4*ihl)` bytes, clamped
to the buffer. -/
def ipv4_payload (p : List Nat) : List Nat :=
  let ihl := byteAt p 0 % 16
  let totalLen := be16 p 2
  let start := 20 + (4 * ihl - 20)
  if p.length ≤ start then []
  else (p.drop start).take (totalLen - 4 * ihl)

/-- Embeds `PacketRouter::analyze_ipv4_packet` (packet_router.rs:126-157).
`Ipv4Packet::new` yields `None` below 20 bytes (the `.context(...)?` then
produces the error); `TcpPacket::new` needs 20 bytes, `UdpPacket::new` 8. -/
def analyze_ipv4_packet (payload : List Nat) : Except String TrafficInfo :=
  if payload.length < 20 then
    Except.error "Failed to parse IPv4 packet"
  else
    let protocol := byteAt payload 9
    let transport := ipv4_payload payload
    let tp : TrafficType × Nat :=
      if protocol = 6 then
        if 20 ≤ transport.length then classify_tcp_traffic transport else (TrafficType.Web, 2)
      else if protocol = 17 then
        if 8 ≤ transport.length then classify_udp_traffic transport else (TrafficType.Unknown, 1)
      else (TrafficType.Unknown, 1)
    Except.ok ⟨tp.1, tp.2, be16 payload 2, some (ipDest payload)⟩

/-- Embeds `PacketRouter::analyze_packet` (packet_router.rs:108-124).
`EthernetPacket::new` yields `None` below 14 bytes; the ethertype field is
bytes 12-13 and `EtherTypes::Ipv4 = 0x0800 = 2048`. -/
def analyze_packet (data : List Nat) : Except String TrafficInfo :=
  if data.length < 14 then
    Except.error "Failed to parse Ethernet packet"
  else if be16 data 12 = 2048 then
    analyze_ipv4_packet (data.drop 14)
  else
    Except.ok ⟨TrafficType.Unknown, 1, data.length, none⟩

/-- Modelled from the spec: the size-heuristic classification strategy of
spec §4.1 (strategy 2).  No function in the files under `src/` buckets a
packet by total byte length; only the port-based deep inspection exists
there, so this definition follows the spec's words: length ≤64 → Gaming,
65–512 → Web, 513–1500 → Streaming, >1500 → FileTransfer. -/
def classify_by_size (len : Nat) : TrafficType :=
  if len ≤ 64 then TrafficType.Gaming
  else if len ≤ 512 then TrafficType.Web
  else if len ≤ 1500 then TrafficType.Streaming
  else TrafficType.File


/-- Rust `Ord::cmp` on unsigned integers / `Duration`. -/
def natCmp (a b : Nat) : Ordering :=
  if a < b then Ordering.lt else if a = b then Ordering.eq else Ordering.gt

/-- Models `partial_cmp` on our exact-rational model of `f32` (never NaN), as used
with `.unwrap_or(Ordering::Equal)` in `select_weighted_best`. -/
def ratCmp (a b : ℚ) : Ordering :=
  if a < b then Ordering.lt else if b < a then Ordering.gt else Ordering.eq

/-- Rust `Iterator::min_by`: folds keeping the accumulator unless the new
element compares strictly smaller, hence the first minimum wins ties. -/
def listMinBy {α : Type} (cmp : α → α → Ordering) : List α → Option α
  | [] => none
  | x :: xs => some (xs.foldl (fun acc y => if cmp acc y = Ordering.gt then y else acc) x)

/-- Rust `Iterator::max_by`: folds replacing the accumulator unless it
compares strictly greater, hence the last maximum wins ties. -/
def listMaxBy {α : Type} (cmp : α → α → Ordering) : List α → Option α
  | [] => none
  | x :: xs => some (xs.foldl (fun acc y => if cmp acc y = Ordering.gt then acc else y) x)

/-- The latency used for comparison in `select_by_latency`: the recorded
latency, or the `Duration::from_millis(9999)` default for absent entries. -/
def effectiveLatency (metrics : MetricsMap) (i : PhysicalInterface) : Nat :=
  match metrics i.index with
  | some m => m.latency
  | none => durationFromMillis 9999

/-- Rust `u64::MAX`. -/
def u64MAX : Nat := 2 ^ 64 - 1

/-- The bandwidth usage used for comparison in `select_by_bandwidth`: the
recorded usage, or the `u64::MAX` default for absent entries. -/
def effectiveUsage (metrics : MetricsMap) (i : PhysicalInterface) : Nat :=
  match metrics i.index with
  | some m => m.bandwidth_usage
  | none => u64MAX

/-- Embeds `PacketRouter::select_by_latency` (packet_router.rs:207-219). -/
def select_by_latency (interfaces : List PhysicalInterface) (metrics : MetricsMap) :
    Option PhysicalInterface :=
  listMinBy
    (fun a b => natCmp (effectiveLatency metrics a) (effectiveLatency metrics b))
    interfaces

/-- Embeds `PacketRouter::select_by_bandwidth` (packet_router.rs:222-235): `max_by`
with the comparator arguments swapped (`usage_b.cmp(&usage_a)`), so lower
usage wins. -/
def select_by_bandwidth (interfaces : List PhysicalInterface) (metrics : MetricsMap) :
    Option PhysicalInterface :=
  listMaxBy
    (fun a b => natCmp (effectiveUsage metrics b) (effectiveUsage metrics a))
    interfaces

/-- Embeds `PacketRouter::calculate_interface_score` (packet_router.rs:271-282). -/
def calculate_interface_score (metrics : MetricsMap) (i : PhysicalInterface) : ℚ :=
  match metrics i.index with
  | some m =>
      let latency_score : ℚ := 1000 / ((asMillis m.latency : ℚ) + 1)
      let bandwidth_score : ℚ := 1 / ((m.bandwidth_usage : ℚ) + 1)
      let reliability_score : ℚ := 1 - m.packet_loss
      latency_score * (0.4 : ℚ) + bandwidth_score * (0.4 : ℚ) + reliability_score * (0.2 : ℚ)
  | none => 0

/-- Embeds `PacketRouter::select_weighted_best` (packet_router.rs:260-268). -/
def select_weighted_best (interfaces : List PhysicalInterface) (metrics : MetricsMap) :
    Option PhysicalInterface :=
  listMaxBy
    (fun a b => ratCmp (calculate_interface_score metrics a) (calculate_interface_score metrics b))
    interfaces

/-- Embeds `PacketRouter::select_balanced` (packet_router.rs:238-257). -/
def select_balanced (interfaces : List PhysicalInterface) (metrics : MetricsMap)
    (traffic_type : TrafficType) : Option PhysicalInterface :=
  match traffic_type with
  | TrafficType.Gaming => select_by_latency interfaces metrics
  | TrafficType.Streaming => select_by_bandwidth interfaces metrics
  | TrafficType.File => select_by_bandwidth interfaces metrics
  | TrafficType.Web => select_weighted_best interfaces metrics
  | TrafficType.Unknown => select_weighted_best interfaces metrics

/-- Embeds `PacketRouter::select_round_robin` (packet_router.rs:199-204): reads the
cursor, selects `interfaces[cursor % len]`, increments the cursor.  (The
`usize` wrap at 2^64 increments is not modelled; with an empty list the
source `%` would panic, but `route_packet` only calls this on a non-empty
list.) -/
def select_round_robin {α : Type} (counter : Nat) (interfaces : List α) : Option α × Nat :=
  (interfaces[counter % interfaces.length]?, counter + 1)

/-- Embeds `PacketRouter::calculate_confidence` (packet_router.rs:289-298). -/
def calculate_confidence (metrics : MetricsMap) (i : PhysicalInterface) : ℚ :=
  match metrics i.index with
  | some m =>
      let latency_confidence : ℚ := if asMillis m.latency < 50 then (0.9 : ℚ) else (0.6 : ℚ)
      let loss_confidence : ℚ := 1 - m.packet_loss
      (latency_confidence + loss_confidence) / 2
  | none => (0.5 : ℚ)

/-- Embeds `InterfaceManager::get_primary_interface` (interface_manager.rs:60-62). -/
def get_primary_interface (catalog : List PhysicalInterface) : Option PhysicalInterface :=
  catalog.head?

/-- Embeds `PacketRouter::get_available_interfaces` (packet_router.rs:284-287):
`vec![self.interface_manager.get_primary_interface().unwrap().clone()]`.
The `none` result models the `unwrap` panic on an empty catalog. -/
def get_available_interfaces (catalog : List PhysicalInterface) :
    Option (List PhysicalInterface) :=
  (get_primary_interface catalog).map (fun p => [p])

/-- The `{:?}` rendering of a `LoadBalancingMode` used in the decision's
`reason` string. -/
def modeName : LoadBalancingMode → String
  | LoadBalancingMode.RoundRobin => "RoundRobin"
  | LoadBalancingMode.LatencyBased => "LatencyBased"
  | LoadBalancingMode.BandwidthBased => "BandwidthBased"
  | LoadBalancingMode.Balanced => "Balanced"

/-- The relevant state of a `PacketRouter` plus its `InterfaceManager`. -/
structure RouterState where
  catalog : List PhysicalInterface
  metrics : MetricsMap
  mode : LoadBalancingMode
  counter : Nat

/-- Outcome of one `route_packet` call: a decision together with the new
round-robin counter, an `anyhow` error, or a panic. -/
inductive RouteResult where
  | ok : RoutingDecision → Nat → RouteResult
  | error : String → RouteResult
  | panic : RouteResult
deriving DecidableEq

/-- Embeds `PacketRouter::route_packet` (packet_router.rs:69-105), in source order:
classify, read metrics, build the available list (which `unwrap`s the primary
interface — modelled by `panic`), the emptiness check, mode dispatch, and the
decision construction. -/
def route_packet (r : RouterState) (data : List Nat) : RouteResult :=
  match analyze_packet data with
  | Except.error e => RouteResult.error e
  | Except.ok ti =>
    match get_available_interfaces r.catalog with
    | none => RouteResult.panic
    | some available =>
      if available.isEmpty then RouteResult.error "No available interfaces for routing"
      else
        let sel : Option PhysicalInterface × Nat :=
          match r.mode with
          | LoadBalancingMode.RoundRobin => select_round_robin r.counter available
          | LoadBalancingMode.LatencyBased => (select_by_latency available r.metrics, r.counter)
          | LoadBalancingMode.BandwidthBased => (select_by_bandwidth available r.metrics, r.counter)
          | LoadBalancingMode.Balanced =>
              (select_balanced available r.metrics ti.traffic_type, r.counter)
        match sel.1 with
        | none => RouteResult.error "Failed to select interface"
        | some iface =>
            RouteResult.ok
              { interface_index := iface.index
                interface_name := iface.name
                confidence := calculate_confidence r.metrics iface
                reason := "Selected based on " ++ modeName r.mode ++ " strategy" }
              sel.2


/-- From `performance_monitor.rs`: the fields of `PerformanceStats` that the
verified operations touch (`uptime` and the timestamped throughput window are
wall-clock data and are omitted; see `record_packet_received`). -/
structure PerfCounters where
  packets_received : Nat
  packets_forwarded : Nat
  packets_dropped : Nat
  bytes_received : Nat
  bytes_forwarded : Nat
  average_latency : Nat
  packet_loss_rate : ℚ
deriving DecidableEq

/-- The `PerformanceMonitor` state: global counters plus the latency sample
window (`latency_history`, front = oldest; the per-sample `Instant`
timestamps are never read by the averaging logic and are omitted). -/
structure MonitorState where
  stats : PerfCounters
  latency_history : List Nat
deriving DecidableEq

/-- Embeds `max_history_size` (performance_monitor.rs:78). -/
def max_history_size : Nat := 1000

/-- The freshly constructed monitor (`PerformanceMonitor::new`). -/
def initMonitor : MonitorState :=
  { stats := { packets_received := 0, packets_forwarded := 0, packets_dropped := 0,
               bytes_received := 0, bytes_forwarded := 0, average_latency := 0,
               packet_loss_rate := 0 }
    latency_history := [] }

/-- Embeds `PerformanceMonitor::record_packet_received` (performance_monitor.rs:84-89);
the `uptime` refresh is wall-clock and not modelled. -/
def record_packet_received (bytes : Nat) (s : MonitorState) : MonitorState :=
  { s with stats := { s.stats with
      packets_received := s.stats.packets_received + 1
      bytes_received := s.stats.bytes_received + bytes } }

/-- Embeds `PerformanceMonitor::record_packet_forwarded` (performance_monitor.rs:92-99);
the timestamped bandwidth window it also feeds is wall-clock and not
modelled. -/
def record_packet_forwarded (bytes : Nat) (s : MonitorState) : MonitorState :=
  { s with stats := { s.stats with
      packets_forwarded := s.stats.packets_forwarded + 1
      bytes_forwarded := s.stats.bytes_forwarded + bytes } }

/-- Embeds `PerformanceMonitor::record_packet_dropped` (performance_monitor.rs:102-111):
increments the drop counter and recomputes the loss rate only when
`packets_received > 0`. -/
def record_packet_dropped (s : MonitorState) : MonitorState :=
  let dropped := s.stats.packets_dropped + 1
  let total := s.stats.packets_received
  let rate := if 0 < total then (dropped : ℚ) / (total : ℚ) else s.stats.packet_loss_rate
  { s with stats := { s.stats with packets_dropped := dropped, packet_loss_rate := rate } }

/-- Embeds `PerformanceMonitor::update_average_latency` (performance_monitor.rs:260-272):
when the window is non-empty, the published average is the `Duration` sum
divided by the length (truncating integer division on nanoseconds). -/
def update_average_latency (s : MonitorState) : MonitorState :=
  if s.latency_history.isEmpty then s
  else { s with stats := { s.stats with
          average_latency := s.latency_history.sum / s.latency_history.length } }

/-- Embeds `PerformanceMonitor::record_processing_latency` (performance_monitor.rs:114-129):
push the sample, pop the front once if the capacity is exceeded, then
recompute the average. -/
def record_processing_latency (lat : Nat) (s : MonitorState) : MonitorState :=
  let h := s.latency_history ++ [lat]
  let h := if max_history_size < h.length then h.drop 1 else h
  update_average_latency { s with latency_history := h }

/-- One recordable monitor event. -/
inductive MonEvent where
  | received (bytes : Nat)
  | forwarded (bytes : Nat)
  | dropped
  | procLatency (lat : Nat)

/-- Apply one event to the monitor. -/
def monStep (s : MonitorState) (e : MonEvent) : MonitorState :=
  match e with
  | MonEvent.received b => record_packet_received b s
  | MonEvent.forwarded b => record_packet_forwarded b s
  | MonEvent.dropped => record_packet_dropped s
  | MonEvent.procLatency l => record_processing_latency l s

/-- Run a finite sequence of record calls against a fresh monitor. -/
def runMonitor (es : List MonEvent) : MonitorState := es.foldl monStep initMonitor

/-- Run a sequence of `record_processing_latency` calls against a fresh
monitor. -/
def recordLatencies (ls : List Nat) : MonitorState :=
  ls.foldl (fun s l => record_processing_latency l s) initMonitor

/-- Asserts that `sel` is the element of `l` with minimal key, the first such
in iteration order: everything strictly before it has a strictly larger key. -/
def IsFirstMinOn {α β : Type} [LT β] [LE β] (key : α → β) (l : List α) (sel : α) : Prop :=
  ∃ l1 l2, l = l1 ++ sel :: l2 ∧ (∀ y ∈ l, key sel ≤ key y) ∧ ∀ y ∈ l1, key sel < key y

/-- Asserts that `sel` is the element of `l` with minimal key, the last such
in iteration order: everything strictly after it has a strictly larger key. -/
def IsLastMinOn {α β : Type} [LT β] [LE β] (key : α → β) (l : List α) (sel : α) : Prop :=
  ∃ l1 l2, l = l1 ++ sel :: l2 ∧ (∀ y ∈ l, key sel ≤ key y) ∧ ∀ y ∈ l2, key sel < key y

/-- Asserts that `sel` is the element of `l` with maximal key, the last such
in iteration order: everything strictly after it has a strictly smaller key. -/
def IsLastMaxOn {α β : Type} [LT β] [LE β] (key : α → β) (l : List α) (sel : α) : Prop :=
  ∃ l1 l2, l = l1 ++ sel :: l2 ∧ (∀ y ∈ l, key y ≤ key sel) ∧ ∀ y ∈ l2, key y < key sel


/-- The Balanced-mode weighted score written exactly as the spec states it
(§4.2): `0.4·latencyScore + 0.4·bandwidthScore + 0.2·reliabilityScore` with
`latencyScore = 1000/(latency_ms+1)`, `bandwidthScore = 1/(bandwidthUsage+1)`,
`reliabilityScore = 1 − packetLossRatio`; for comparison with the source's
`calculate_interface_score`. -/
def specWeightedScore (latency_ms bandwidthUsage : Nat) (packetLossRatio : ℚ) : ℚ :=
  (0.4 : ℚ) * (1000 / ((latency_ms : ℚ) + 1)) +
    (0.4 : ℚ) * (1 / ((bandwidthUsage : ℚ) + 1)) +
    (0.2 : ℚ) * (1 - packetLossRatio)


def ethernetInterface : PhysicalInterface :=
  ⟨"Ethernet", "Primary Ethernet Interface", 3232235876, 1⟩

def wifiInterface : PhysicalInterface :=
  ⟨"WiFi", "Wireless Network Interface", 3232235877, 2⟩

def mockCatalog : List PhysicalInterface := [ethernetInterface, wifiInterface]

def emptyMetrics : MetricsMap := fun _ => none

def zeroFrame : List Nat := List.replicate 14 0

def routedIndex : RouteResult → Option Nat
  | RouteResult.ok d _ => some d.interface_index
  | _ => none

def routedCounter : RouteResult → Option Nat
  | RouteResult.ok _ c => some c
  | _ => none

def primaryBalancedDecision : RoutingDecision :=
  { interface_index := 1, interface_name := "Ethernet",
    confidence := calculate_confidence emptyMetrics ethernetInterface,
    reason := "Selected based on Balanced strategy" }


def highLatencyMetrics : MetricsMap :=
  fun i => if i = 1 then some ⟨durationFromMillis 10000, 0, 0⟩ else none

def lowLatencyMetrics : MetricsMap :=
  fun i => if i = 1 then some ⟨durationFromMillis 10, 0, 0⟩ else none

def scoredMetrics : MetricsMap :=
  fun i => if i = 1 then some ⟨durationFromMillis 10, 5, 1 / 2⟩ else none

def exampleLatencies : List Nat := [10000000, 20000000, 30000000]

end NetBoost

namespace NetBoost


theorem foldl_strict_min {α β : Type} [LinearOrder β] (key : α → β) :
    ∀ (l : List α) (x : α), ∃ l1 m l2,
      x :: l = l1 ++ m :: l2 ∧
      l.foldl (fun acc y => if key y < key acc then y else acc) x = m ∧
      (∀ y ∈ x :: l, key m ≤ key y) ∧
      (∀ y ∈ l1, key m < key y) := by
  intro l
  induction l with
  | nil =>
      intro x
      refine ⟨[], x, [], rfl, rfl, ?_, ?_⟩
      · intro y hy
        rw [List.mem_singleton] at hy
        exact hy ▸ le_refl _
      · intro y hy
        exact absurd hy (List.not_mem_nil y)
  | cons a t ih =>
      intro x
      rw [List.foldl_cons]
      by_cases h : key a < key x
      · rw [if_pos h]
        obtain ⟨l1, m, l2, hsplit, hfold, hmin, hfirst⟩ := ih a
        refine ⟨x :: l1, m, l2, ?_, hfold, ?_, ?_⟩
        · rw [List.cons_append, ← hsplit]
        · intro y hy
          rcases List.mem_cons.mp hy with rfl | hy
          · exact le_of_lt (lt_of_le_of_lt (hmin a (List.mem_cons_self a t)) h)
          · exact hmin y hy
        · intro y hy
          rcases List.mem_cons.mp hy with rfl | hy
          · exact lt_of_le_of_lt (hmin a (List.mem_cons_self a t)) h
          · exact hfirst y hy
      · rw [if_neg h]
        push_neg at h
        obtain ⟨l1, m, l2, hsplit, hfold, hmin, hfirst⟩ := ih x
        cases l1 with
        | nil =>
            rw [List.nil_append] at hsplit
            injection hsplit with hm hl2
            refine ⟨[], m, a :: l2, ?_, hfold, ?_, ?_⟩
            · rw [List.nil_append, ← hm, ← hl2]
            · intro y hy
              rcases List.mem_cons.mp hy with rfl | hy
              · exact hmin y (List.mem_cons_self y t)
              · rcases List.mem_cons.mp hy with rfl | hy
                · exact le_trans (hmin x (List.mem_cons_self x t)) h
                · exact hmin y (List.mem_cons_of_mem x hy)
            · intro y hy
              exact absurd hy (List.not_mem_nil y)
        | cons b l1' =>
            injection hsplit with hb ht
            have hmx : key m < key x := by
              rw [hb]
              exact hfirst b (List.mem_cons_self b l1')
            refine ⟨x :: a :: l1', m, l2, ?_, hfold, ?_, ?_⟩
            · rw [ht]
              simp [List.cons_append]
            · intro y hy
              rcases List.mem_cons.mp hy with rfl | hy
              · exact hmin y (List.mem_cons_self y t)
              · rcases List.mem_cons.mp hy with rfl | hy
                · exact le_trans (le_of_lt hmx) h
                · exact hmin y (List.mem_cons_of_mem x hy)
            · intro y hy
              rcases List.mem_cons.mp hy with rfl | hy
              · exact hmx
              · rcases List.mem_cons.mp hy with rfl | hy
                · exact lt_of_lt_of_le hmx h
                · exact hfirst y (List.mem_cons_of_mem b hy)

theorem foldl_weak_min {α β : Type} [LinearOrder β] (key : α → β) :
    ∀ (l : List α) (x : α), ∃ l1 m l2,
      x :: l = l1 ++ m :: l2 ∧
      l.foldl (fun acc y => if key acc < key y then acc else y) x = m ∧
      (∀ y ∈ x :: l, key m ≤ key y) ∧
      (∀ y ∈ l2, key m < key y) := by
  intro l
  induction l with
  | nil =>
      intro x
      refine ⟨[], x, [], rfl, rfl, ?_, ?_⟩
      · intro y hy
        rw [List.mem_singleton] at hy
        exact hy ▸ le_refl _
      · intro y hy
        exact absurd hy (List.not_mem_nil y)
  | cons a t ih =>
      intro x
      rw [List.foldl_cons]
      by_cases h : key x < key a
      · rw [if_pos h]
        obtain ⟨l1, m, l2, hsplit, hfold, hmin, hlast⟩ := ih x
        cases l1 with
        | nil =>
            rw [List.nil_append] at hsplit
            injection hsplit with hm hl2
            refine ⟨[], m, a :: l2, ?_, hfold, ?_, ?_⟩
            · rw [List.nil_append, ← hm, ← hl2]
            · intro y hy
              rcases List.mem_cons.mp hy with rfl | hy
              · exact hmin y (List.mem_cons_self y t)
              · rcases List.mem_cons.mp hy with rfl | hy
                · exact le_of_lt (lt_of_le_of_lt (hmin x (List.mem_cons_self x t)) h)
                · exact hmin y (List.mem_cons_of_mem x hy)
            · intro y hy
              rcases List.mem_cons.mp hy with rfl | hy
              · rw [← hm]
                exact h
              · exact hlast y hy
        | cons b l1' =>
            injection hsplit with hb ht
            refine ⟨x :: a :: l1', m, l2, ?_, hfold, ?_, ?_⟩
            · rw [ht]
              simp [List.cons_append]
            · intro y hy
              rcases List.mem_cons.mp hy with rfl | hy
              · exact hmin y (List.mem_cons_self y t)
              · rcases List.mem_cons.mp hy with rfl | hy
                · exact le_of_lt (lt_of_le_of_lt (hmin x (List.mem_cons_self x t)) h)
                · exact hmin y (List.mem_cons_of_mem x hy)
            · exact hlast
      · rw [if_neg h]
        push_neg at h
        obtain ⟨l1, m, l2, hsplit, hfold, hmin, hlast⟩ := ih a
        refine ⟨x :: l1, m, l2, ?_, hfold, ?_, ?_⟩
        · rw [List.cons_append, ← hsplit]
        · intro y hy
          rcases List.mem_cons.mp hy with rfl | hy
          · exact le_trans (hmin a (List.mem_cons_self a t)) h
          · exact hmin y hy
        · exact hlast

theorem foldl_weak_max {α β : Type} [LinearOrder β] (key : α → β) :
    ∀ (l : List α) (x : α), ∃ l1 m l2,
      x :: l = l1 ++ m :: l2 ∧
      l.foldl (fun acc y => if key y < key acc then acc else y) x = m ∧
      (∀ y ∈ x :: l, key y ≤ key m) ∧
      (∀ y ∈ l2, key y < key m) := by
  intro l
  induction l with
  | nil =>
      intro x
      refine ⟨[], x, [], rfl, rfl, ?_, ?_⟩
      · intro y hy
        rw [List.mem_singleton] at hy
        exact hy ▸ le_refl _
      · intro y hy
        exact absurd hy (List.not_mem_nil y)
  | cons a t ih =>
      intro x
      rw [List.foldl_cons]
      by_cases h : key a < key x
      · rw [if_pos h]
        obtain ⟨l1, m, l2, hsplit, hfold, hmax, hlast⟩ := ih x
        cases l1 with
        | nil =>
            rw [List.nil_append] at hsplit
            injection hsplit with hm hl2
            refine ⟨[], m, a :: l2, ?_, hfold, ?_, ?_⟩
            · rw [List.nil_append, ← hm, ← hl2]
            · intro y hy
              rcases List.mem_cons.mp hy with rfl | hy
              · exact hmax y (List.mem_cons_self y t)
              · rcases List.mem_cons.mp hy with rfl | hy
                · exact le_of_lt (lt_of_lt_of_le h (hmax x (List.mem_cons_self x t)))
                · exact hmax y (List.mem_cons_of_mem x hy)
            · intro y hy
              rcases List.mem_cons.mp hy with rfl | hy
              · rw [← hm]
                exact h
              · exact hlast y hy
        | cons b l1' =>
            injection hsplit with hb ht
            refine ⟨x :: a :: l1', m, l2, ?_, hfold, ?_, ?_⟩
            · rw [ht]
              simp [List.cons_append]
            · intro y hy
              rcases List.mem_cons.mp hy with rfl | hy
              · exact hmax y (List.mem_cons_self y t)
              · rcases List.mem_cons.mp hy with rfl | hy
                · exact le_of_lt (lt_of_lt_of_le h (hmax x (List.mem_cons_self x t)))
                · exact hmax y (List.mem_cons_of_mem x hy)
            · exact hlast
      · rw [if_neg h]
        push_neg at h
        obtain ⟨l1, m, l2, hsplit, hfold, hmax, hlast⟩ := ih a
        refine ⟨x :: l1, m, l2, ?_, hfold, ?_, ?_⟩
        · rw [List.cons_append, ← hsplit]
        · intro y hy
          rcases List.mem_cons.mp hy with rfl | hy
          · exact le_trans h (hmax a (List.mem_cons_self a t))
          · exact hmax y hy
        · exact hlast


theorem natCmp_gt_iff {a b : Nat} : natCmp a b = Ordering.gt ↔ b < a := by
  unfold natCmp
  split_ifs with h1 h2
  · simp
    omega
  · simp
    omega
  · simp
    omega

theorem ratCmp_gt_iff {a b : ℚ} : ratCmp a b = Ordering.gt ↔ b < a := by
  unfold ratCmp
  split_ifs with h1 h2
  · simp
    exact le_of_lt h1
  · simp
    exact h2
  · simp
    exact le_of_not_lt h2

theorem select_by_latency_char (l : List PhysicalInterface) (mm : MetricsMap) (h : l ≠ []) :
    ∃ sel, select_by_latency l mm = some sel ∧ IsFirstMinOn (effectiveLatency mm) l sel := by
  cases l with
  | nil => exact absurd rfl h
  | cons x xs =>
      have hfun :
          (fun (acc y : PhysicalInterface) =>
            if natCmp (effectiveLatency mm acc) (effectiveLatency mm y) = Ordering.gt
            then y else acc)
          = (fun acc y =>
            if effectiveLatency mm y < effectiveLatency mm acc then y else acc) := by
        funext acc y
        by_cases hc : effectiveLatency mm y < effectiveLatency mm acc
        · rw [if_pos (natCmp_gt_iff.mpr hc), if_pos hc]
        · rw [if_neg (fun hg => hc (natCmp_gt_iff.mp hg)), if_neg hc]
      obtain ⟨l1, m, l2, hsplit, hfold, hmin, hfirst⟩ :=
        foldl_strict_min (effectiveLatency mm) xs x
      refine ⟨m, ?_, l1, l2, hsplit, hmin, hfirst⟩
      show select_by_latency (x :: xs) mm = some m
      simp only [select_by_latency, listMinBy]
      rw [hfun, hfold]

theorem select_by_bandwidth_char (l : List PhysicalInterface) (mm : MetricsMap) (h : l ≠ []) :
    ∃ sel, select_by_bandwidth l mm = some sel ∧ IsLastMinOn (effectiveUsage mm) l sel := by
  cases l with
  | nil => exact absurd rfl h
  | cons x xs =>
      have hfun :
          (fun (acc y : PhysicalInterface) =>
            if natCmp (effectiveUsage mm y) (effectiveUsage mm acc) = Ordering.gt
            then acc else y)
          = (fun acc y =>
            if effectiveUsage mm acc < effectiveUsage mm y then acc else y) := by
        funext acc y
        by_cases hc : effectiveUsage mm acc < effectiveUsage mm y
        · rw [if_pos (natCmp_gt_iff.mpr hc), if_pos hc]
        · rw [if_neg (fun hg => hc (natCmp_gt_iff.mp hg)), if_neg hc]
      obtain ⟨l1, m, l2, hsplit, hfold, hmin, hlast⟩ :=
        foldl_weak_min (effectiveUsage mm) xs x
      refine ⟨m, ?_, l1, l2, hsplit, hmin, hlast⟩
      show select_by_bandwidth (x :: xs) mm = some m
      simp only [select_by_bandwidth, listMaxBy]
      rw [hfun, hfold]

theorem select_weighted_best_char (l : List PhysicalInterface) (mm : MetricsMap) (h : l ≠ []) :
    ∃ sel, select_weighted_best l mm = some sel ∧
      IsLastMaxOn (calculate_interface_score mm) l sel := by
  cases l with
  | nil => exact absurd rfl h
  | cons x xs =>
      have hfun :
          (fun (acc y : PhysicalInterface) =>
            if ratCmp (calculate_interface_score mm acc) (calculate_interface_score mm y)
                = Ordering.gt
            then acc else y)
          = (fun acc y =>
            if calculate_interface_score mm y < calculate_interface_score mm acc
            then acc else y) := by
        funext acc y
        by_cases hc : calculate_interface_score mm y < calculate_interface_score mm acc
        · rw [if_pos (ratCmp_gt_iff.mpr hc), if_pos hc]
        · rw [if_neg (fun hg => hc (ratCmp_gt_iff.mp hg)), if_neg hc]
      obtain ⟨l1, m, l2, hsplit, hfold, hmax, hlast⟩ :=
        foldl_weak_max (calculate_interface_score mm) xs x
      refine ⟨m, ?_, l1, l2, hsplit, hmax, hlast⟩
      show select_weighted_best (x :: xs) mm = some m
      simp only [select_weighted_best, listMaxBy]
      rw [hfun, hfold]

theorem route_packet_eq (catalog : List PhysicalInterface) (p : PhysicalInterface)
    (mm : MetricsMap) (mode : LoadBalancingMode) (c : Nat) (data : List Nat) (ti : TrafficInfo)
    (hp : catalog.head? = some p) (hA : analyze_packet data = Except.ok ti) :
    route_packet ⟨catalog, mm, mode, c⟩ data =
      RouteResult.ok
        { interface_index := p.index, interface_name := p.name,
          confidence := calculate_confidence mm p,
          reason := "Selected based on " ++ modeName mode ++ " strategy" }
        (if mode = LoadBalancingMode.RoundRobin then c + 1 else c) := by
  have havail : get_available_interfaces catalog = some [p] := by
    simp [get_available_interfaces, get_primary_interface, hp]
  unfold route_packet
  rw [hA, havail]
  obtain ⟨tt, pr, sz, dst⟩ := ti
  cases mode with
  | RoundRobin =>
      simp [select_round_robin, Nat.mod_one]
  | LatencyBased =>
      simp [select_by_latency, listMinBy]
  | BandwidthBased =>
      simp [select_by_bandwidth, listMaxBy]
  | Balanced =>
      cases tt <;>
        simp [select_balanced, select_by_latency, select_by_bandwidth, select_weighted_best,
          listMinBy, listMaxBy]

theorem route_ok_char (catalog : List PhysicalInterface) (p : PhysicalInterface)
    (mm : MetricsMap) (mode : LoadBalancingMode) (c : Nat) (data : List Nat)
    (d : RoutingDecision) (c2 : Nat)
    (hp : catalog.head? = some p)
    (hr : route_packet ⟨catalog, mm, mode, c⟩ data = RouteResult.ok d c2) :
    d.interface_index = p.index ∧ d.interface_name = p.name ∧
    get_available_interfaces catalog = some [p] ∧
    c2 = (if mode = LoadBalancingMode.RoundRobin then c + 1 else c) := by
  cases hA : analyze_packet data with
  | error e =>
      unfold route_packet at hr
      rw [hA] at hr
      exact absurd hr (by simp)
  | ok ti =>
      rw [route_packet_eq catalog p mm mode c data ti hp hA] at hr
      injection hr with hd hc
      refine ⟨?_, ?_, ?_, hc.symm⟩
      · rw [← hd]
      · rw [← hd]
      · simp [get_available_interfaces, get_primary_interface, hp]

theorem monitor_rate_zero_inv (es : List MonEvent) :
    ∀ s : MonitorState,
      (s.stats.packets_received = 0 → s.stats.packet_loss_rate = 0) →
      ((es.foldl monStep s).stats.packets_received = 0 →
        (es.foldl monStep s).stats.packet_loss_rate = 0) := by
  induction es with
  | nil => exact fun s h => h
  | cons e t ih =>
      intro s h
      rw [List.foldl_cons]
      apply ih
      cases e with
      | received b =>
          intro h0
          simp [monStep, record_packet_received] at h0
      | forwarded b =>
          intro h0
          simp [monStep, record_packet_forwarded] at h0 ⊢
          exact h h0
      | dropped =>
          intro h0
          simp [monStep, record_packet_dropped] at h0 ⊢
          rw [if_neg (by omega)]
          exact h h0
      | procLatency lat =>
          intro h0
          simp [monStep, record_processing_latency, update_average_latency] at h0 ⊢
          split_ifs at h0 ⊢ <;> exact h h0


theorem update_average_latency_history (s : MonitorState) :
    (update_average_latency s).latency_history = s.latency_history := by
  unfold update_average_latency
  split_ifs <;> rfl

theorem recordLatencies_append (ls : List Nat) (x : Nat) :
    recordLatencies (ls ++ [x]) = record_processing_latency x (recordLatencies ls) := by
  unfold recordLatencies
  rw [List.foldl_append]
  rfl

theorem record_processing_latency_history (x : Nat) (s : MonitorState) :
    (record_processing_latency x s).latency_history =
      (if max_history_size < (s.latency_history ++ [x]).length
        then (s.latency_history ++ [x]).drop 1 else s.latency_history ++ [x]) := by
  unfold record_processing_latency
  rw [update_average_latency_history]

theorem history_suffix (ls : List Nat) :
    (recordLatencies ls).latency_history = ls.drop (ls.length - max_history_size) := by
  induction ls using List.reverseRecOn with
  | nil => rfl
  | append_singleton t x ih =>
      rw [recordLatencies_append, record_processing_latency_history, ih]
      have hlen : (t.drop (t.length - max_history_size)).length =
          t.length - (t.length - max_history_size) := List.length_drop _ _
      by_cases hc : t.length < max_history_size
      · have h0 : t.length - max_history_size = 0 := by omega
        rw [h0, List.drop_zero]
        rw [if_neg (by simp only [List.length_append, List.length_singleton]; omega)]
        have h1 : (t ++ [x]).length - max_history_size = 0 := by
          simp only [List.length_append, List.length_singleton]
          omega
        rw [h1, List.drop_zero]
      · have hM : max_history_size ≤ t.length := by omega
        have h1000 : max_history_size = 1000 := rfl
        have hlen2 : (t.drop (t.length - max_history_size) ++ [x]).length =
            max_history_size + 1 := by
          simp only [List.length_append, List.length_singleton, hlen]
          omega
        rw [if_pos (by rw [hlen2]; omega)]
        have e1 : (t.drop (t.length - max_history_size) ++ [x]).drop 1 =
            (t.drop (t.length - max_history_size)).drop 1 ++ [x] :=
          List.drop_append_of_le_length (by
            rw [hlen]
            omega)
        have e2 : (t.drop (t.length - max_history_size)).drop 1 =
            t.drop (t.length - max_history_size + 1) := by
          rw [List.drop_drop]
        have e3 : (t ++ [x]).drop ((t ++ [x]).length - max_history_size) =
            t.drop (t.length - max_history_size + 1) ++ [x] := by
          have hidx : (t ++ [x]).length - max_history_size =
              t.length - max_history_size + 1 := by
            simp only [List.length_append, List.length_singleton]
            omega
          rw [hidx]
          exact List.drop_append_of_le_length (by omega)
        rw [e1, e2, e3]

theorem record_processing_latency_avg (x : Nat) (s : MonitorState) :
    (record_processing_latency x s).stats.average_latency =
      (record_processing_latency x s).latency_history.sum /
        (record_processing_latency x s).latency_history.length := by
  simp only [record_processing_latency, update_average_latency]
  have h1000 : max_history_size = 1000 := rfl
  split_ifs with hc he1 he2
  · exfalso
    rw [List.isEmpty_iff] at he1
    have h1 := congrArg List.length he1
    simp only [List.length_drop, List.length_append, List.length_singleton,
      List.length_nil] at h1
    simp only [List.length_append, List.length_singleton] at hc
    omega
  · rfl
  · exfalso
    rw [List.isEmpty_iff] at he2
    simp at he2
  · rfl


/-- C1: with an empty interface catalog, `route_packet` does not return the
`NoInterfacesAvailable` error the spec requires: `get_available_interfaces`
`unwrap`s `get_primary_interface()` (= `None`) and panics before the
emptiness check is reached, even though classification of the packet
succeeds. -/
theorem route_packet_empty_catalog_panics :
    route_packet ⟨[], emptyMetrics, LoadBalancingMode.Balanced, 0⟩ zeroFrame =
      RouteResult.panic ∧
    (analyze_packet zeroFrame).isOk = true :=
  ⟨rfl, rfl⟩

/-- C2: whenever the catalog is non-empty, every successful `route_packet`
call — for every mode and every metrics map — returns the decision for the
catalog's first (primary) interface, and the candidate list handed to the
selection algorithms is the one-element list containing only the primary. -/
theorem route_packet_selects_primary (catalog : List PhysicalInterface)
    (p : PhysicalInterface) (mm : MetricsMap) (mode : LoadBalancingMode) (c : Nat)
    (data : List Nat) (d : RoutingDecision) (c2 : Nat)
    (hp : catalog.head? = some p)
    (hr : route_packet ⟨catalog, mm, mode, c⟩ data = RouteResult.ok d c2) :
    d.interface_index = p.index ∧ d.interface_name = p.name ∧
    get_available_interfaces catalog = some [p] := by
  obtain ⟨h1, h2, h3, _⟩ := route_ok_char catalog p mm mode c data d c2 hp hr
  exact ⟨h1, h2, h3⟩

/-- Witness for C2 at a concrete two-interface catalog. -/
theorem route_packet_selects_primary_witness :
    primaryBalancedDecision.interface_index = ethernetInterface.index ∧
    primaryBalancedDecision.interface_name = ethernetInterface.name ∧
    get_available_interfaces mockCatalog = some [ethernetInterface] :=
  route_packet_selects_primary mockCatalog ethernetInterface emptyMetrics
    LoadBalancingMode.Balanced 0 zeroFrame primaryBalancedDecision 0 rfl rfl

/-- C3 counterexample: the catalog holds interfaces with indices 1 and 2, yet
under RoundRobin the first two consecutive `route_packet` calls both select
index 1 (the candidate list is always the singleton primary), so the N
consecutive calls do not visit each catalog index once. -/
theorem round_robin_does_not_cycle_catalog :
    mockCatalog.map PhysicalInterface.index = [1, 2] ∧
    routedIndex (route_packet ⟨mockCatalog, emptyMetrics, LoadBalancingMode.RoundRobin, 0⟩
      zeroFrame) = some 1 ∧
    routedCounter (route_packet ⟨mockCatalog, emptyMetrics, LoadBalancingMode.RoundRobin, 0⟩
      zeroFrame) = some 1 ∧
    routedIndex (route_packet ⟨mockCatalog, emptyMetrics, LoadBalancingMode.RoundRobin, 1⟩
      zeroFrame) = some 1 := by
  refine ⟨rfl, rfl, rfl, rfl⟩

/-- C3 (amended): `select_round_robin` itself does cycle the list it is given
(the k-th of N calls returns element k, the (N+1)-th repeats the first, and
the cursor increments by one on every call regardless of metrics), but
through `route_packet` that list is always the singleton primary, so every
RoundRobin `route_packet` call returns the primary interface while the
cursor still increments. -/
theorem round_robin_cycle (l : List PhysicalInterface) (h : l ≠ []) :
    ((List.range l.length).map (fun k => (select_round_robin k l).1) = l.map some) ∧
    ((select_round_robin l.length l).1 = (select_round_robin 0 l).1) ∧
    (∀ c : Nat, (select_round_robin c l).2 = c + 1) ∧
    (∀ (catalog : List PhysicalInterface) (p : PhysicalInterface) (mm : MetricsMap)
        (c : Nat) (data : List Nat) (d : RoutingDecision) (c2 : Nat),
        catalog.head? = some p →
        route_packet ⟨catalog, mm, LoadBalancingMode.RoundRobin, c⟩ data =
          RouteResult.ok d c2 →
        d.interface_index = p.index ∧ c2 = c + 1) := by
  refine ⟨?_, ?_, fun c => rfl, ?_⟩
  · apply List.ext_getElem
    · simp
    · intro i h1 h2
      simp only [List.getElem_map, List.getElem_range, select_round_robin]
      rw [Nat.mod_eq_of_lt (by simpa using h2)]
      exact List.getElem?_eq_getElem _
  · simp [select_round_robin, Nat.mod_self, Nat.zero_mod]
  · intro catalog p mm c data d c2 hp hr
    obtain ⟨h1, _, _, h4⟩ := route_ok_char catalog p mm LoadBalancingMode.RoundRobin
      c data d c2 hp hr
    exact ⟨h1, by simpa using h4⟩

/-- Witness for C3 (amended) at the concrete two-interface catalog. -/
theorem round_robin_cycle_witness :
    ((List.range mockCatalog.length).map (fun k => (select_round_robin k mockCatalog).1) =
      mockCatalog.map some) ∧
    ((select_round_robin mockCatalog.length mockCatalog).1 =
      (select_round_robin 0 mockCatalog).1) ∧
    (∀ c : Nat, (select_round_robin c mockCatalog).2 = c + 1) ∧
    (∀ (catalog : List PhysicalInterface) (p : PhysicalInterface) (mm : MetricsMap)
        (c : Nat) (data : List Nat) (d : RoutingDecision) (c2 : Nat),
        catalog.head? = some p →
        route_packet ⟨catalog, mm, LoadBalancingMode.RoundRobin, c⟩ data =
          RouteResult.ok d c2 →
        d.interface_index = p.index ∧ c2 = c + 1) :=
  round_robin_cycle mockCatalog (by decide)


/-- C4 counterexample: classification of the empty byte sequence returns a
parse error to the caller instead of degrading to `{Unknown, priority 1}`. -/
theorem analyze_packet_errors_on_short_input :
    analyze_packet [] = Except.error "Failed to parse Ethernet packet" := rfl

/-- C4 (amended): classification never panics but does return an error,
exactly for inputs shorter than the 14-byte Ethernet header and for
IPv4-ethertype frames shorter than 14 + 20 bytes; an unsupported ethertype
(with a parseable Ethernet header) degrades to `{Unknown, priority 1}`, and
the two parse errors are the only error values. -/
theorem analyze_packet_error_conditions (data : List Nat) :
    ((analyze_packet data).isOk = true ↔
      (14 ≤ data.length ∧ (be16 data 12 = 2048 → 34 ≤ data.length))) ∧
    (14 ≤ data.length → be16 data 12 ≠ 2048 →
      analyze_packet data = Except.ok ⟨TrafficType.Unknown, 1, data.length, none⟩) ∧
    (∀ e, analyze_packet data = Except.error e →
      e = "Failed to parse Ethernet packet" ∨ e = "Failed to parse IPv4 packet") := by
  unfold analyze_packet
  by_cases h1 : data.length < 14
  · rw [if_pos h1]
    refine ⟨?_, ?_, ?_⟩
    · constructor
      · intro hok
        simp [Except.isOk, Except.toBool] at hok
      · rintro ⟨hge, -⟩
        omega
    · intro h
      omega
    · intro e he
      injection he with he
      exact Or.inl he.symm
  · rw [if_neg h1]
    by_cases h2 : be16 data 12 = 2048
    · rw [if_pos h2]
      unfold analyze_ipv4_packet
      have hdl : (data.drop 14).length = data.length - 14 := List.length_drop 14 data
      by_cases h3 : (data.drop 14).length < 20
      · rw [if_pos h3]
        refine ⟨?_, ?_, ?_⟩
        · constructor
          · intro hok
            simp [Except.isOk, Except.toBool] at hok
          · rintro ⟨hge, himp⟩
            have h34 := himp h2
            omega
        · intro _ hne
          exact absurd h2 hne
        · intro e he
          injection he with he
          exact Or.inr he.symm
      · rw [if_neg h3]
        refine ⟨?_, ?_, ?_⟩
        · constructor
          · intro _
            exact ⟨by omega, fun _ => by omega⟩
          · intro _
            rfl
        · intro _ hne
          exact absurd h2 hne
        · intro e he
          exact absurd he (by simp)
    · rw [if_neg h2]
      refine ⟨?_, ?_, ?_⟩
      · constructor
        · intro _
          exact ⟨by omega, fun hb => absurd hb h2⟩
        · intro _
          rfl
      · intro _ _
        rfl
      · intro e he
        exact absurd he (by simp)

/-- Witness for C4 (amended): a 14-byte non-IPv4 frame classifies as
`{Unknown, priority 1}` without error. -/
theorem analyze_packet_error_conditions_witness :
    14 ≤ zeroFrame.length ∧ be16 zeroFrame 12 ≠ 2048 ∧
    analyze_packet zeroFrame = Except.ok ⟨TrafficType.Unknown, 1, zeroFrame.length, none⟩ :=
  ⟨by decide, by decide,
    (analyze_packet_error_conditions zeroFrame).2.1 (by decide) (by decide)⟩

/-- C5: the spec-modelled size-heuristic strategy buckets by total byte
length exactly as stated, with the four example packet sizes landing in the
stated classes. -/
theorem classify_by_size_buckets (len : Nat) :
    (len ≤ 64 → classify_by_size len = TrafficType.Gaming) ∧
    (65 ≤ len → len ≤ 512 → classify_by_size len = TrafficType.Web) ∧
    (513 ≤ len → len ≤ 1500 → classify_by_size len = TrafficType.Streaming) ∧
    (1501 ≤ len → classify_by_size len = TrafficType.File) ∧
    classify_by_size 60 = TrafficType.Gaming ∧ classify_by_size 300 = TrafficType.Web ∧
    classify_by_size 1000 = TrafficType.Streaming ∧
    classify_by_size 2000 = TrafficType.File := by
  refine ⟨?_, ?_, ?_, ?_, by decide, by decide, by decide, by decide⟩ <;>
    · intros
      unfold classify_by_size
      split_ifs <;> first | rfl | (exfalso; omega)

/-- Witness for C5: the 60-byte example. -/
theorem classify_by_size_buckets_witness :
    60 ≤ 64 ∧ classify_by_size 60 = TrafficType.Gaming :=
  ⟨by decide, (classify_by_size_buckets 60).1 (by decide)⟩

/-- C6 (amended): the reported packet-loss ratio is exactly 0 whenever no
packet has been received (never a division error), and it equals
dropped/received after any event sequence that ends with a `recordDropped`
call made while received > 0 — but `recordReceived` does not recompute it,
so it can go stale (see the counterexample). -/
theorem packet_loss_rate_spec (es : List MonEvent) :
    ((runMonitor es).stats.packets_received = 0 →
      (runMonitor es).stats.packet_loss_rate = 0) ∧
    (0 < (runMonitor es).stats.packets_received →
      (runMonitor (es ++ [MonEvent.dropped])).stats.packet_loss_rate =
        ((runMonitor (es ++ [MonEvent.dropped])).stats.packets_dropped : ℚ) /
          ((runMonitor (es ++ [MonEvent.dropped])).stats.packets_received : ℚ)) := by
  constructor
  · exact monitor_rate_zero_inv es initMonitor (fun _ => rfl)
  · intro hpos
    have hstep : runMonitor (es ++ [MonEvent.dropped]) =
        record_packet_dropped (runMonitor es) := by
      unfold runMonitor
      rw [List.foldl_append]
      rfl
    rw [hstep]
    simp [record_packet_dropped, hpos]

/-- Witness for C6 (amended): one received packet followed by one drop gives
ratio dropped/received. -/
theorem packet_loss_rate_spec_witness :
    (runMonitor ([MonEvent.received 5] ++ [MonEvent.dropped])).stats.packet_loss_rate =
      ((runMonitor ([MonEvent.received 5] ++ [MonEvent.dropped])).stats.packets_dropped : ℚ) /
        ((runMonitor ([MonEvent.received 5] ++ [MonEvent.dropped])).stats.packets_received : ℚ) :=
  (packet_loss_rate_spec [MonEvent.received 5]).2 (by decide)

/-- C6 counterexample: receive, drop, receive again — the dropped and
received counters read 1 and 2, but the reported ratio is the stale 1/1,
not dropped/received = 1/2. -/
theorem packet_loss_rate_goes_stale :
    (runMonitor [MonEvent.received 100, MonEvent.dropped, MonEvent.received 100]).stats.packets_received
      = 2 ∧
    (runMonitor [MonEvent.received 100, MonEvent.dropped, MonEvent.received 100]).stats.packets_dropped
      = 1 ∧
    (runMonitor [MonEvent.received 100, MonEvent.dropped, MonEvent.received 100]).stats.packet_loss_rate
      ≠ ((runMonitor [MonEvent.received 100, MonEvent.dropped, MonEvent.received 100]).stats.packets_dropped : ℚ) /
          ((runMonitor [MonEvent.received 100, MonEvent.dropped, MonEvent.received 100]).stats.packets_received : ℚ) := by
  refine ⟨by decide, by decide, ?_⟩
  have h1 :
      (runMonitor [MonEvent.received 100, MonEvent.dropped, MonEvent.received 100]).stats.packet_loss_rate
        = 1 := by
    simp [runMonitor, monStep, record_packet_received, record_packet_dropped, initMonitor]
  have h2 :
      (runMonitor [MonEvent.received 100, MonEvent.dropped, MonEvent.received 100]).stats.packets_dropped
        = 1 := by decide
  have h3 :
      (runMonitor [MonEvent.received 100, MonEvent.dropped, MonEvent.received 100]).stats.packets_received
        = 2 := by decide
  rw [h1, h2, h3]
  norm_num

/-- C7 counterexample: the Ethernet interface has a metrics entry (latency
10000 ms), the WiFi interface has none (default 9999 ms), and LatencyBased
selection picks the metrics-less WiFi interface — so an interface with a
metrics entry does not always win over one with none. -/
theorem metrics_having_interface_can_lose :
    select_by_latency [ethernetInterface, wifiInterface] highLatencyMetrics =
      some wifiInterface ∧
    (highLatencyMetrics ethernetInterface.index).isSome = true ∧
    highLatencyMetrics wifiInterface.index = none ∧
    wifiInterface ≠ ethernetInterface := by
  refine ⟨by decide, by decide, by decide, by decide⟩

/-- C7 (amended): LatencyBased selection picks the first interface (in
iteration order) minimizing the effective latency, where an interface with
no metrics entry is charged the 9999 ms default; consequently an interface
with a metrics entry wins over every metrics-less interface exactly when
some entry records a latency below the default (not unconditionally). -/
theorem latency_based_selection (l : List PhysicalInterface) (mm : MetricsMap)
    (h : l ≠ []) :
    (∀ i : PhysicalInterface, mm i.index = none →
      effectiveLatency mm i = durationFromMillis 9999) ∧
    ∃ sel, select_by_latency l mm = some sel ∧
      IsFirstMinOn (effectiveLatency mm) l sel ∧
      ((∃ a ∈ l, ∃ pm, mm a.index = some pm ∧ pm.latency < durationFromMillis 9999) →
        (mm sel.index).isSome = true) := by
  refine ⟨fun i hi => by simp [effectiveLatency, hi], ?_⟩
  obtain ⟨sel, hsel, hmin⟩ := select_by_latency_char l mm h
  refine ⟨sel, hsel, hmin, ?_⟩
  rintro ⟨a, ha, pm, hpm, hlt⟩
  obtain ⟨l1, l2, hsplit, hle, -⟩ := hmin
  have h1 : effectiveLatency mm sel ≤ effectiveLatency mm a := hle a ha
  have h2 : effectiveLatency mm a = pm.latency := by simp [effectiveLatency, hpm]
  cases hms : mm sel.index with
  | some q => rfl
  | none =>
      exfalso
      have h3 : effectiveLatency mm sel = durationFromMillis 9999 := by
        simp [effectiveLatency, hms]
      omega

/-- Witness for C7 (amended) at a concrete two-interface list where the
Ethernet interface records 10 ms. -/
theorem latency_based_selection_witness :
    (∀ i : PhysicalInterface, lowLatencyMetrics i.index = none →
      effectiveLatency lowLatencyMetrics i = durationFromMillis 9999) ∧
    ∃ sel, select_by_latency [ethernetInterface, wifiInterface] lowLatencyMetrics =
        some sel ∧
      IsFirstMinOn (effectiveLatency lowLatencyMetrics) [ethernetInterface, wifiInterface]
        sel ∧
      ((∃ a ∈ [ethernetInterface, wifiInterface], ∃ pm,
          lowLatencyMetrics a.index = some pm ∧ pm.latency < durationFromMillis 9999) →
        (lowLatencyMetrics sel.index).isSome = true) :=
  latency_based_selection [ethernetInterface, wifiInterface] lowLatencyMetrics (by decide)

/-- C8 counterexample: with no metrics at all, every interface ties on both
the bandwidth default and the weighted score 0, yet `select_by_bandwidth`
and `select_weighted_best` both return the *last* interface, not the first
in iteration order. -/
theorem max_by_ties_resolve_to_last :
    effectiveUsage emptyMetrics ethernetInterface =
      effectiveUsage emptyMetrics wifiInterface ∧
    select_by_bandwidth [ethernetInterface, wifiInterface] emptyMetrics =
      some wifiInterface ∧
    calculate_interface_score emptyMetrics ethernetInterface =
      calculate_interface_score emptyMetrics wifiInterface ∧
    select_weighted_best [ethernetInterface, wifiInterface] emptyMetrics =
      some wifiInterface ∧
    wifiInterface ≠ ethernetInterface := by
  refine ⟨by decide, by decide, by decide, by decide, by decide⟩

/-- C8 (amended): each metric-driven selection is deterministic and stable,
but the tie direction differs: LatencyBased (`min_by`) resolves ties to the
first tied interface in iteration order, while BandwidthBased and the
Balanced weighted score (`max_by`) resolve ties to the last tied
interface. -/
theorem selection_tie_breaking (l : List PhysicalInterface) (mm : MetricsMap)
    (h : l ≠ []) :
    (∃ sel, select_by_latency l mm = some sel ∧
      IsFirstMinOn (effectiveLatency mm) l sel) ∧
    (∃ sel, select_by_bandwidth l mm = some sel ∧
      IsLastMinOn (effectiveUsage mm) l sel) ∧
    (∃ sel, select_weighted_best l mm = some sel ∧
      IsLastMaxOn (calculate_interface_score mm) l sel) :=
  ⟨select_by_latency_char l mm h, select_by_bandwidth_char l mm h,
    select_weighted_best_char l mm h⟩

/-- Witness for C8 (amended) at the concrete two-interface list with empty
metrics. -/
theorem selection_tie_breaking_witness :
    (∃ sel, select_by_latency [ethernetInterface, wifiInterface] emptyMetrics =
        some sel ∧
      IsFirstMinOn (effectiveLatency emptyMetrics) [ethernetInterface, wifiInterface] sel) ∧
    (∃ sel, select_by_bandwidth [ethernetInterface, wifiInterface] emptyMetrics =
        some sel ∧
      IsLastMinOn (effectiveUsage emptyMetrics) [ethernetInterface, wifiInterface] sel) ∧
    (∃ sel, select_weighted_best [ethernetInterface, wifiInterface] emptyMetrics =
        some sel ∧
      IsLastMaxOn (calculate_interface_score emptyMetrics) [ethernetInterface, wifiInterface]
        sel) :=
  selection_tie_breaking [ethernetInterface, wifiInterface] emptyMetrics (by decide)

/-- C9: Balanced mode dispatches Gaming to LatencyBased, Streaming and
FileTransfer to BandwidthBased, and Web/Unknown to the weighted score, which
equals the spec's 0.4/0.4/0.2 formula; an interface with no metrics entry
scores 0 and (for loss ratios in [0,1], per the spec's data model) is chosen
for Web/Unknown traffic only if no listed interface has any metrics. -/
theorem balanced_selection :
    (∀ (mm : MetricsMap) (i : PhysicalInterface) (pm : PacketMetrics),
        mm i.index = some pm →
        calculate_interface_score mm i =
          specWeightedScore (asMillis pm.latency) pm.bandwidth_usage pm.packet_loss) ∧
    (∀ (mm : MetricsMap) (i : PhysicalInterface),
        mm i.index = none → calculate_interface_score mm i = 0) ∧
    (∀ (l : List PhysicalInterface) (mm : MetricsMap),
        select_balanced l mm TrafficType.Gaming = select_by_latency l mm ∧
        select_balanced l mm TrafficType.Streaming = select_by_bandwidth l mm ∧
        select_balanced l mm TrafficType.File = select_by_bandwidth l mm ∧
        select_balanced l mm TrafficType.Web = select_weighted_best l mm ∧
        select_balanced l mm TrafficType.Unknown = select_weighted_best l mm) ∧
    (∀ (l : List PhysicalInterface) (mm : MetricsMap) (sel : PhysicalInterface),
        (∀ n pm, mm n = some pm → 0 ≤ pm.packet_loss ∧ pm.packet_loss ≤ 1) →
        (∃ a ∈ l, (mm a.index).isSome = true) →
        (select_balanced l mm TrafficType.Web = some sel ∨
          select_balanced l mm TrafficType.Unknown = some sel) →
        (mm sel.index).isSome = true) := by
  refine ⟨?_, ?_, ?_, ?_⟩
  · intro mm i pm hpm
    simp [calculate_interface_score, specWeightedScore, hpm]
    ring
  · intro mm i hi
    simp [calculate_interface_score, hi]
  · intro l mm
    exact ⟨rfl, rfl, rfl, rfl, rfl⟩
  · intro l mm sel hrange hex hsel
    obtain ⟨a, ha, hsome⟩ := hex
    have hne : l ≠ [] := List.ne_nil_of_mem ha
    obtain ⟨sel', hsel', l1, l2, hsplit, hmax, -⟩ := select_weighted_best_char l mm hne
    have hsel2 : select_weighted_best l mm = some sel := by
      cases hsel with
      | inl hw => exact hw
      | inr hu => exact hu
    have hss : sel' = sel := by
      rw [hsel'] at hsel2
      exact Option.some.inj hsel2
    rw [← hss]
    cases hma : mm a.index with
    | none => rw [hma] at hsome; simp at hsome
    | some pm =>
        have hpl := (hrange a.index pm hma).2
        have hscore_a : 0 < calculate_interface_score mm a := by
          simp [calculate_interface_score, hma]
          have hq1 : 0 < (1000 : ℚ) / ((asMillis pm.latency : ℚ) + 1) := by positivity
          have hq2 : 0 < ((pm.bandwidth_usage : ℚ) + 1)⁻¹ := by positivity
          linarith
        have hle : calculate_interface_score mm a ≤ calculate_interface_score mm sel' :=
          hmax a ha
        cases hms : mm sel'.index with
        | some q => rfl
        | none =>
            exfalso
            have h0 : calculate_interface_score mm sel' = 0 := by
              simp [calculate_interface_score, hms]
            rw [h0] at hle
            linarith

/-- Witness for C9 at a concrete singleton list whose interface records
latency 10 ms, usage 5 and loss 1/2. -/
theorem balanced_selection_witness :
    (scoredMetrics ethernetInterface.index).isSome = true :=
  balanced_selection.2.2.2 [ethernetInterface] scoredMetrics ethernetInterface
    (by
      intro n pm hpm
      by_cases hn : n = 1
      · subst hn
        simp [scoredMetrics] at hpm
        rw [← hpm]
        norm_num
      · simp [scoredMetrics, hn] at hpm)
    ⟨ethernetInterface, by simp, rfl⟩
    (Or.inl rfl)

/-- C10 (amended): the latency window never exceeds its capacity of 1000
samples, eviction is FIFO (the retained window is exactly the most recent
1000 samples, in order), and the published average is the window's sum
divided by its length — the arithmetic mean rounded down to whole
nanoseconds (exact for the 10/20/30 ms example, but truncated in general:
see the counterexample). -/
theorem latency_window_spec (ls : List Nat) :
    (recordLatencies ls).latency_history = ls.drop (ls.length - max_history_size) ∧
    (recordLatencies ls).latency_history.length ≤ max_history_size ∧
    (ls ≠ [] → (recordLatencies ls).stats.average_latency =
      (recordLatencies ls).latency_history.sum /
        (recordLatencies ls).latency_history.length) := by
  refine ⟨history_suffix ls, ?_, ?_⟩
  · rw [history_suffix ls, List.length_drop]
    omega
  · intro hne
    rcases List.eq_nil_or_concat ls with h0 | ⟨t, x, h0⟩
    · exact absurd h0 hne
    · rw [h0, List.concat_eq_append, recordLatencies_append]
      exact record_processing_latency_avg x (recordLatencies t)

/-- Witness for C10 (amended): processing latencies of 10 ms, 20 ms and
30 ms (in nanoseconds) average to exactly 20 ms. -/
theorem latency_window_spec_witness :
    exampleLatencies ≠ [] ∧
    (recordLatencies exampleLatencies).stats.average_latency =
      (recordLatencies exampleLatencies).latency_history.sum /
        (recordLatencies exampleLatencies).latency_history.length ∧
    (recordLatencies exampleLatencies).stats.average_latency = 20000000 :=
  ⟨by decide, (latency_window_spec exampleLatencies).2.2 (by decide), by decide⟩

/-- C10 counterexample: samples of 1 ns and 2 ns are both retained, but the
published average is the truncated 1 ns rather than the arithmetic mean
3/2 ns of the retained window. -/
theorem average_latency_truncates :
    (recordLatencies [1, 2]).latency_history = [1, 2] ∧
    (recordLatencies [1, 2]).stats.average_latency = 1 ∧
    ((recordLatencies [1, 2]).stats.average_latency : ℚ) ≠ ((1 : ℚ) + 2) / 2 := by
  refine ⟨by decide, by decide, ?_⟩
  have h : (recordLatencies [1, 2]).stats.average_latency = 1 := by decide
  rw [h]
  norm_num

end NetBoost
